import Mathlib

/-!
Shallow embedding of `src/tree/basic_decision_regression/src/demo.cpp` (the
demo / I-O glue around the decision-tree engine): the CSV loader
(`load_data_from_one_file`, `load_data`), the column configuration
(`GetDataConfig`), the metrics code (`test_tree`) and the CLI loop (`main`).

Conventions of the embedding:
- C++ `float` is idealised as `Rat`; `int` as `Int`; vector indices as `Nat`.
- A file is a function from path to `Option (List String)`: `none` models a
  file that cannot be opened, `some lines` models its list of lines.
- `std::map<K, V>` values that the demo only iterates or looks up are
  modelled as association lists whose distinct keys are in iteration order.
- Out-of-bounds accesses and other undefined behaviour surface as `none`
  (`Option`-valued results).
- The boost tokenizer (`boost::split` + trimming) and the two
  `boost::lexical_cast` parsers are external library code; the embedding is
  parametric in them (`split`, `parseF`, `parseI`).
-/

namespace BasicTree

/-- Modelled from the spec: `basic_tree::VALUE` is declared in
`basic_tree.h`, which is not under `src/`. Per the spec it is a
discriminated scalar: `Category(int)` with discriminant 0, or
`Measurement(float)` with discriminant 1. -/
inductive VALUE where
  | Category : Int → VALUE
  | Measurement : Rat → VALUE
deriving DecidableEq

/-- Modelled from the spec: the discriminant accessor `VALUE::dtype()`
(0 for `Category`, 1 for `Measurement`). -/
def VALUE.dtype : VALUE → Nat
  | .Category _ => 0
  | .Measurement _ => 1

/-- Modelled from the spec: the category accessor `VALUE::i()`; calling it
on the wrong variant fails with `TypeMismatchError`, modelled as `none`. -/
def VALUE.i : VALUE → Option Int
  | .Category c => some c
  | .Measurement _ => none

/-- Modelled from the spec: the measurement accessor `VALUE::f()`; calling
it on the wrong variant fails with `TypeMismatchError`, modelled as
`none`. -/
def VALUE.f : VALUE → Option Rat
  | .Category _ => none
  | .Measurement x => some x

/-- A row of the dataset: `std::vector<basic_tree::VALUE>`. -/
abbrev Row := List VALUE

/-- Struct `DATA_CONFIG` from demo.cpp: a column kind (`"value"` or
`"class"`) together with a target position in the row vector. -/
structure DATA_CONFIG where
  dtype : String
  pos : Nat
deriving DecidableEq

/-- Function `GetDataConfig` from demo.cpp: the fixed name-to-config map built by
nine `insert` calls. Keys are distinct, so the association list has the
same lookup behaviour as the `std::map`. -/
def GetDataConfig : List (String × DATA_CONFIG) :=
  [("SalePrice", ⟨"value", 0⟩),
   ("YearBuilt", ⟨"value", 1⟩),
   ("YearRemodAdd", ⟨"value", 2⟩),
   ("Neighborhood", ⟨"value", 3⟩),
   ("LotArea", ⟨"value", 4⟩),
   ("LotShape", ⟨"class", 5⟩),
   ("LotConfig", ⟨"class", 6⟩),
   ("HouseStyle", ⟨"class", 7⟩),
   ("GarageArea", ⟨"value", 8⟩)]

/-- The per-line cell-filling loop of `load_data_from_one_file`
(demo.cpp lines 52-67): for each column of the split line, look the header
name up in the configuration; on a hit store at the configured position a
`Measurement` parsed as float for kind `"value"`, else a `Category` parsed
as int. `parseF` and `parseI` stand for `boost::lexical_cast<float>` and
`boost::lexical_cast<int>`. -/
def fillStep (parseF : String → Rat) (parseI : String → Int)
    (cfg : List (String × DATA_CONFIG)) (data : Row) (ch : String × String) :
    Row :=
  match cfg.lookup ch.2 with
  | none => data
  | some c =>
    if c.dtype = "value" then data.set c.pos (VALUE.Measurement (parseF ch.1))
    else data.set c.pos (VALUE.Category (parseI ch.1))

/-- The whole per-line loop: fold the cell step over the cells paired
with their header names. -/
def fillRow (parseF : String → Rat) (parseI : String → Int)
    (cfg : List (String × DATA_CONFIG)) (heads splits : List String)
    (init : Row) : Row :=
  (splits.zip heads).foldl (fillStep parseF parseI cfg) init

/-- The line-reading loop of `load_data_from_one_file` (demo.cpp lines
33-69), acting on the list of lines of an opened file. State `hdr` is
`col2head`: empty until the first non-empty line is consumed as the
header. Reading stops at the first empty line. Each data line becomes a
row of `cfg.length` default cells (`vdef` models the default-constructed
`VALUE`) filled by `fillRow`. -/
def load_rows_go (split : String → List String) (parseF : String → Rat)
    (parseI : String → Int) (cfg : List (String × DATA_CONFIG)) (vdef : VALUE) :
    List String → List String → List Row
  | [], _ => []
  | l :: rest, hdr =>
    if l = "" then []
    else if hdr.isEmpty then load_rows_go split parseF parseI cfg vdef rest (split l)
    else fillRow parseF parseI cfg hdr (split l) (List.replicate cfg.length vdef) ::
      load_rows_go split parseF parseI cfg vdef rest hdr

/-- The body of `load_data_from_one_file` on the lines of an opened file. -/
def load_rows (split : String → List String) (parseF : String → Rat)
    (parseI : String → Int) (cfg : List (String × DATA_CONFIG)) (vdef : VALUE)
    (lines : List String) : List Row :=
  load_rows_go split parseF parseI cfg vdef lines []

/-- Function `load_data_from_one_file` from demo.cpp: a file that cannot be opened
(`none`) yields the empty dataset (lines 26-29); otherwise the lines are
processed by the reading loop. -/
def load_data_from_one_file (file : Option (List String))
    (split : String → List String) (parseF : String → Rat)
    (parseI : String → Int) (cfg : List (String × DATA_CONFIG)) (vdef : VALUE) :
    List Row :=
  match file with
  | none => []
  | some lines => load_rows split parseF parseI cfg vdef lines

/-- Function `load_data` from demo.cpp: loads `data_dir + "/train.csv"` and
`data_dir + "/test.csv"` through `load_data_from_one_file` and returns 0.
`fs` models the filesystem. The result triple is (train_data, test_data,
return value). -/
def load_data (fs : String → Option (List String))
    (split : String → List String) (parseF : String → Rat)
    (parseI : String → Int) (vdef : VALUE) (data_dir : String)
    (cfg : List (String × DATA_CONFIG)) : List Row × List Row × Int :=
  (load_data_from_one_file (fs (data_dir ++ "/train.csv")) split parseF parseI cfg vdef,
   load_data_from_one_file (fs (data_dir ++ "/test.csv")) split parseF parseI cfg vdef,
   0)

/-- The arg-max scan of `test_tree` (demo.cpp lines 111-120): fold over
the prediction map in key order, starting from class -1 and probability
-1, replacing the best pair whenever a strictly larger probability is
seen. -/
def pred_best (m : List (Int × Rat)) : Int × Rat :=
  m.foldl (fun b e => if e.2 > b.2 then e else b) (-1, -1)

/-- Access `preds[k][0]` in the regression branch: `std::map::operator[]`
returns the stored value, or default-inserts and returns `0.0`. -/
def mapAt (m : List (Int × Rat)) (k : Int) : Rat :=
  (m.lookup k).getD 0

/-- The classification loop of `test_tree` (demo.cpp lines 108-126):
for each prediction, add 1 when the arg-max class equals `X[k][0].i()`.
`none` models an out-of-range access of `X[k]` or `X[k][0]`, or a
`TypeMismatchError` from `i()`. -/
def recall_loop : List (List (Int × Rat)) → List Row → Option Rat
  | [], _ => some 0
  | _ :: _, [] => none
  | p :: ps, x :: xs => do
    let c ← x.head?.bind VALUE.i
    let rest ← recall_loop ps xs
    pure ((if (pred_best p).1 = c then (1 : Rat) else 0) + rest)

/-- The regression loop of `test_tree` (demo.cpp lines 131-136): for each
prediction, add `|preds[k][0] - X[k][0].f()| / max(1e-5, X[k][0].f())`. -/
def mapd_loop : List (List (Int × Rat)) → List Row → Option Rat
  | [], _ => some 0
  | _ :: _, [] => none
  | p :: ps, x :: xs => do
    let t ← x.head?.bind VALUE.f
    let rest ← mapd_loop ps xs
    pure (|mapAt p 0 - t| / max (1 / 100000 : Rat) t + rest)

/-- Function `test_tree` from demo.cpp, taking the evaluator output `preds`
directly (the tree engine lives in `basic_tree.h`, outside `src/`; per the
spec `Evaluate` returns one mapping per input row). The observable result
is the printed label and number: `("REC", recall / X.size())` when
`X[0][0].dtype() == 0`, `("MAPD", sum / X.size())` when it is 1. `none`
models an undefined access (`X[0][0]` on an empty input, `X[k]` beyond
`X.size()`, a mismatched accessor) or the fall-through that prints
nothing. -/
def test_tree (preds : List (List (Int × Rat))) (X : List Row) :
    Option (String × Rat) :=
  match X.head?.bind List.head? with
  | none => none
  | some v0 =>
    if v0.dtype = 0 then
      (recall_loop preds X).map (fun r => ("REC", r / (X.length : Rat)))
    else if v0.dtype = 1 then
      (mapd_loop preds X).map (fun s => ("MAPD", s / (X.length : Rat)))
    else none

/-- Modelled from the spec: `basic_tree::CTrainParam` is declared in
`basic_tree.h`, which is not under `src/`. The demo assigns exactly the
fields `loss_type` (the criterion), `min_std` (the dispersion stop) and
`max_depth`. -/
structure CTrainParam where
  loss_type : String
  min_std : Rat
  max_depth : Int
deriving DecidableEq

/-- One observable step of `main`'s CLI loop, over an abstract dataset
type `DS` (the trained tree itself lives in `basic_tree.h`, outside
`src/`): constructing a fresh `CTree`, calling `Train`, printing the depth
header, or running `test_tree` on a dataset. -/
inductive Event (DS : Type) where
  | construct_tree
  | train (data : DS) (p : CTrainParam)
  | print_depth (d : Int)
  | metric (data : DS)

/-- The depth list `{3, 10, 50}` of `main` (demo.cpp line 155). -/
def main_depths : List Int := [3, 10, 50]

/-- The CLI loop of `main` (demo.cpp lines 152-167): starting from a
default-constructed `param` (`p0`), set `loss_type` to `"gini"` and
`min_std` to `0.1`; then for each depth construct a fresh tree, set
`param.max_depth`, train on the training set, print the depth, and run
`test_tree` on the training set and then on the test set. The result is
the trace of observable events. -/
def main_loop (DS : Type) (trainset testset : DS) (p0 : CTrainParam) :
    List (Event DS) :=
  let p1 : CTrainParam := { p0 with loss_type := "gini", min_std := 1 / 10 }
  (main_depths.foldl
    (fun (acc : CTrainParam × List (Event DS)) depth =>
      let p : CTrainParam := { acc.1 with max_depth := depth }
      (p, acc.2 ++
        [Event.construct_tree, Event.train trainset p,
         Event.print_depth p.max_depth, Event.metric trainset,
         Event.metric testset]))
    (p1, [])).2

/-- The `Train` parameters occurring in a trace, in order. -/
def trainedParams {DS : Type} (evs : List (Event DS)) : List CTrainParam :=
  evs.filterMap fun e =>
    match e with
    | .train _ p => some p
    | _ => none

/-- Call `getenv` as used by `main`: `none` models a null pointer for an unset
variable. `env` is the process environment. -/
def cpp_getenv (env : List (String × String)) (name : String) : Option String :=
  env.lookup name

/-- The construction `std::string root_dir(getenv("DATASET_ROOT_DIR"))` at
demo.cpp line 149: constructing a `std::string` from a null `char`
pointer is undefined behaviour, modelled as `none`. -/
def root_dir_init (env : List (String × String)) : Option String :=
  match cpp_getenv env "DATASET_ROOT_DIR" with
  | none => none
  | some s => some s

/-- Variable `root_dir` after line 150 appends the `house_price` subdirectory
(`root_dir += "house_price\\"`). -/
def main_root_dir (env : List (String × String)) : Option String :=
  (root_dir_init env).map (fun s => s ++ "house_price\\")

/-- The data-loading phase of `main` (demo.cpp lines 149-151): resolve the
dataset root, then call `load_data` with the configuration from
`GetDataConfig`. -/
def main_load (fs : String → Option (List String))
    (split : String → List String) (parseF : String → Rat)
    (parseI : String → Int) (vdef : VALUE) (env : List (String × String)) :
    Option (List Row × List Row × Int) :=
  (main_root_dir env).map
    (fun dir => load_data fs split parseF parseI vdef dir GetDataConfig)

end BasicTree

namespace BasicTree

/-- The arg-max fold, relative to an arbitrary accumulator: the result is
the accumulator or an element of the list, its probability dominates the
accumulator, and it dominates every element of the list. -/
theorem pred_best_spec_aux (m : List (Int × Rat)) :
    ∀ acc : Int × Rat,
      (m.foldl (fun b e => if e.2 > b.2 then e else b) acc = acc
        ∨ m.foldl (fun b e => if e.2 > b.2 then e else b) acc ∈ m)
      ∧ acc.2 ≤ (m.foldl (fun b e => if e.2 > b.2 then e else b) acc).2
      ∧ ∀ e ∈ m, e.2 ≤ (m.foldl (fun b e => if e.2 > b.2 then e else b) acc).2 := by
  induction m with
  | nil => intro acc; simp
  | cons a as ih =>
    intro acc
    simp only [List.foldl_cons]
    rcases ih (if a.2 > acc.2 then a else acc) with ⟨hor, hacc, hall⟩
    have hstep : acc.2 ≤ (if a.2 > acc.2 then a else acc).2 := by
      split
      · exact le_of_lt (by assumption)
      · exact le_refl _
    have hstepa : a.2 ≤ (if a.2 > acc.2 then a else acc).2 := by
      split
      · exact le_refl _
      · exact le_of_not_lt (by assumption)
    refine ⟨?_, le_trans hstep hacc, ?_⟩
    · rcases hor with h | h
      · by_cases hc : a.2 > acc.2
        · right
          rw [h, if_pos hc]
          exact List.mem_cons_self a as
        · left
          rw [h, if_neg hc]
      · right
        exact List.mem_cons_of_mem a h
    · intro e he
      rcases List.mem_cons.1 he with rfl | he
      · exact le_trans hstepa hacc
      · exact hall e he

/-- Lemma that `pred_best` is a genuine arg-max: on a map holding some probability
above the initial -1, it returns an entry of the map whose probability
dominates every entry. -/
theorem pred_best_is_argmax (m : List (Int × Rat))
    (hm : m.any (fun e => decide ((-1 : Rat) < e.2)) = true) :
    pred_best m ∈ m
    ∧ m.all (fun e => decide (e.2 ≤ (pred_best m).2)) = true := by
  obtain ⟨e, he, hlt⟩ : ∃ e ∈ m, (-1 : Rat) < e.2 := by
    simpa using List.any_eq_true.1 hm
  unfold pred_best
  rcases pred_best_spec_aux m (-1, -1) with ⟨hor, _, hall⟩
  constructor
  · rcases hor with h | h
    · exfalso
      have hle := hall e he
      rw [h] at hle
      exact absurd (lt_of_lt_of_le hlt hle) (by norm_num)
    · exact h
  · rw [List.all_eq_true]
    intro x hx
    simpa using hall x hx

/-- The classification loop counts exactly the rows whose arg-max class
equals the true class in column 0. -/
theorem recall_loop_eq (preds : List (List (Int × Rat))) (X : List Row)
    (classes : List Int) (hlen : preds.length = X.length)
    (hcol : X.map (fun x => x.head?) =
      classes.map (fun c => some (VALUE.Category c))) :
    recall_loop preds X =
      some (((preds.zip classes).countP
        (fun pc => (pred_best pc.1).1 == pc.2) : ℕ) : Rat) := by
  induction preds generalizing X classes with
  | nil => simp [recall_loop]
  | cons p ps ih =>
    cases X with
    | nil => simp at hlen
    | cons x xs =>
      cases classes with
      | nil => simp at hcol
      | cons c cs =>
        simp only [List.map_cons, List.cons.injEq] at hcol
        obtain ⟨hx, hcs⟩ := hcol
        have hlen' : ps.length = xs.length := by simpa using hlen
        simp only [recall_loop, hx, VALUE.i, ih xs cs hlen' hcs,
          List.zip_cons_cons, List.countP_cons, Option.bind_some,
          Option.some_bind, Option.bind_eq_bind, bind, Option.bind,
          pure, Option.pure_def]
        by_cases hc : (pred_best p).1 = c <;>
          simp [hc, add_comm]

/-- The regression loop sums exactly the per-row absolute deviations with
floored denominators. -/
theorem mapd_loop_eq (preds : List (List (Int × Rat))) (X : List Row)
    (ts : List Rat) (hlen : preds.length = X.length)
    (hcol : X.map (fun x => x.head?) =
      ts.map (fun t => some (VALUE.Measurement t))) :
    mapd_loop preds X =
      some (((preds.zip ts).map
        (fun pt => |mapAt pt.1 0 - pt.2| / max (1 / 100000 : Rat) pt.2)).sum) := by
  induction preds generalizing X ts with
  | nil => simp [mapd_loop]
  | cons p ps ih =>
    cases X with
    | nil => simp at hlen
    | cons x xs =>
      cases ts with
      | nil => simp at hcol
      | cons t tr =>
        simp only [List.map_cons, List.cons.injEq] at hcol
        obtain ⟨hx, htr⟩ := hcol
        have hlen' : ps.length = xs.length := by simpa using hlen
        simp only [mapd_loop, hx, VALUE.f, ih xs tr hlen' htr,
          List.zip_cons_cons, List.map_cons, List.sum_cons, Option.bind_some,
          Option.some_bind, Option.bind_eq_bind, bind, Option.bind,
          pure, Option.pure_def]

/-- C1: for a classification target the metrics code counts a row as
correct exactly when the arg-max class of its prediction mapping equals
the true class in column 0, and prints the count divided by the number of
rows; `pred_best` really is the key with maximal probability. -/
theorem claim_C1_recall (preds : List (List (Int × Rat))) (X : List Row)
    (classes : List Int) (m : List (Int × Rat))
    (hlen : preds.length = X.length)
    (hcol : X.map (fun x => x.head?) =
      classes.map (fun c => some (VALUE.Category c)))
    (hne : X ≠ [])
    (hm : m.any (fun e => decide ((-1 : Rat) < e.2)) = true) :
    test_tree preds X =
      some ("REC", (((preds.zip classes).countP
        (fun pc => (pred_best pc.1).1 == pc.2) : ℕ) : Rat) / (X.length : Rat))
    ∧ pred_best m ∈ m
    ∧ m.all (fun e => decide (e.2 ≤ (pred_best m).2)) = true := by
  obtain ⟨hmem, hmax⟩ := pred_best_is_argmax m hm
  refine ⟨?_, hmem, hmax⟩
  cases X with
  | nil => exact absurd rfl hne
  | cons x xs =>
    cases classes with
    | nil => simp at hcol
    | cons c cs =>
      have hx : x.head? = some (VALUE.Category c) := by
        simpa using congrArg List.head? hcol
      have hrl := recall_loop_eq preds (x :: xs) (c :: cs) hlen hcol
      simp [test_tree, hx, hrl, VALUE.dtype]

/-- Witness for C1: one prediction mapping with arg-max class 0, a
one-row dataset with true class 0 (a hit), and a concrete map for the
arg-max characterisation. -/
theorem claim_C1_recall_witness :
    test_tree [[(0, 1 / 2), (1, 1 / 3)]] [[VALUE.Category 0]] =
      some ("REC", ((([[(0, 1 / 2), (1, 1 / 3)]].zip [0]).countP
        (fun pc => (pred_best pc.1).1 == pc.2) : ℕ) : Rat) /
        (([[VALUE.Category 0]] : List Row).length : Rat))
    ∧ pred_best [(5, 2)] ∈ [(5, 2)]
    ∧ ([(5, 2)] : List (Int × Rat)).all
        (fun e => decide (e.2 ≤ (pred_best [(5, 2)]).2)) = true :=
  claim_C1_recall [[(0, 1 / 2), (1, 1 / 3)]] [[VALUE.Category 0]] [0] [(5, 2)]
    rfl rfl (by simp) (by decide)

/-- C2: for a regression target the metrics code prints the mean over all
rows of the absolute deviation of the prediction at key 0 from the true
measurement in column 0, divided by `max(1e-5, truth)` — a denominator
that is never smaller than 1e-5. -/
theorem claim_C2_mapd (preds : List (List (Int × Rat))) (X : List Row)
    (ts : List Rat) (t : Rat)
    (hlen : preds.length = X.length)
    (hcol : X.map (fun x => x.head?) =
      ts.map (fun v => some (VALUE.Measurement v)))
    (hne : X ≠ []) :
    test_tree preds X =
      some ("MAPD", (((preds.zip ts).map
        (fun pt => |mapAt pt.1 0 - pt.2| / max (1 / 100000 : Rat) pt.2)).sum) /
        (X.length : Rat))
    ∧ (1 / 100000 : Rat) ≤ max (1 / 100000 : Rat) t := by
  refine ⟨?_, le_max_left _ _⟩
  cases X with
  | nil => exact absurd rfl hne
  | cons x xs =>
    cases ts with
    | nil => simp at hcol
    | cons t0 tr =>
      have hx : x.head? = some (VALUE.Measurement t0) := by
        simpa using congrArg List.head? hcol
      have hml := mapd_loop_eq preds (x :: xs) (t0 :: tr) hlen hcol
      simp [test_tree, hx, hml, VALUE.dtype]

/-- Witness for C2: one prediction with value 3 at key 0 against the true
measurement 2 (deviation 1/2), and the floor instantiated at the negative
truth -5. -/
theorem claim_C2_mapd_witness :
    test_tree [[(0, 3)]] [[VALUE.Measurement 2]] =
      some ("MAPD", ((([[(0, 3)]].zip [2]).map
        (fun pt => |mapAt pt.1 0 - pt.2| / max (1 / 100000 : Rat) pt.2)).sum) /
        (([[VALUE.Measurement 2]] : List Row).length : Rat))
    ∧ (1 / 100000 : Rat) ≤ max (1 / 100000 : Rat) (-5) :=
  claim_C2_mapd [[(0, 3)]] [[VALUE.Measurement 2]] [2] (-5) rfl rfl (by simp)

/-- C3: the choice between the classification metric (recall) and the
regression metric (MAPD) in `test_tree` is determined solely by the
discriminant of the target value in column 0 of the first row:
discriminant 0 (`Category`) selects the recall branch, discriminant 1
(`Measurement`) selects the MAPD branch. -/
theorem claim_C3_metric_dispatch (preds : List (List (Int × Rat)))
    (X : List Row) (x0 : Row) (v0 : VALUE)
    (hx : X.head? = some x0) (hv : x0.head? = some v0) :
    (v0.dtype = 0 →
      test_tree preds X =
        (recall_loop preds X).map (fun r => ("REC", r / (X.length : Rat))))
    ∧ (v0.dtype = 1 →
      test_tree preds X =
        (mapd_loop preds X).map (fun s => ("MAPD", s / (X.length : Rat)))) := by
  constructor
  · intro h0
    simp [test_tree, hx, hv, h0]
  · intro h1
    simp [test_tree, hx, hv, h1]

/-- Witness for C3 at a concrete classification input and a concrete
regression input. -/
theorem claim_C3_metric_dispatch_witness :
    ((VALUE.Category 2).dtype = 0 →
      test_tree [[(2, 1)]] [[VALUE.Category 2]] =
        (recall_loop [[(2, 1)]] [[VALUE.Category 2]]).map
          (fun r => ("REC", r / (([[VALUE.Category 2]] : List Row).length : Rat))))
    ∧ ((VALUE.Category 2).dtype = 1 →
      test_tree [[(2, 1)]] [[VALUE.Category 2]] =
        (mapd_loop [[(2, 1)]] [[VALUE.Category 2]]).map
          (fun s => ("MAPD", s / (([[VALUE.Category 2]] : List Row).length : Rat)))) :=
  claim_C3_metric_dispatch [[(2, 1)]] [[VALUE.Category 2]] [VALUE.Category 2]
    (VALUE.Category 2) rfl rfl

/-- C5: the CLI loop performs exactly three training runs, each on a
freshly constructed tree, with `max_depth` 3, 10, 50 in that order, and
after each training prints the metric over the training set and then over
the test set. The trace is fully explicit. -/
theorem claim_C5_three_runs (DS : Type) (trainset testset : DS)
    (p0 : CTrainParam) :
    main_loop DS trainset testset p0 =
      [Event.construct_tree, Event.train trainset ⟨"gini", 1 / 10, 3⟩,
       Event.print_depth 3, Event.metric trainset, Event.metric testset,
       Event.construct_tree, Event.train trainset ⟨"gini", 1 / 10, 10⟩,
       Event.print_depth 10, Event.metric trainset, Event.metric testset,
       Event.construct_tree, Event.train trainset ⟨"gini", 1 / 10, 50⟩,
       Event.print_depth 50, Event.metric trainset, Event.metric testset] := by
  rfl

/-- C6: across the three training runs only `max_depth` differs between
the parameters passed to `Train`; `loss_type` is `"gini"` and `min_std`
is 0.1 in every run. -/
theorem claim_C6_param_frame (DS : Type) (trainset testset : DS)
    (p0 : CTrainParam) :
    (trainedParams (main_loop DS trainset testset p0)).map
        (fun p => p.loss_type) = ["gini", "gini", "gini"]
    ∧ (trainedParams (main_loop DS trainset testset p0)).map
        (fun p => p.min_std) = [1 / 10, 1 / 10, 1 / 10]
    ∧ (trainedParams (main_loop DS trainset testset p0)).map
        (fun p => p.max_depth) = [3, 10, 50] :=
  ⟨rfl, rfl, rfl⟩

/-- C7: the demo resolves the dataset root from the `DATASET_ROOT_DIR`
environment variable, appends the `house_price` subdirectory, and loads
the training and test datasets from `train.csv` and `test.csv` under that
directory. -/
theorem claim_C7_dataset_paths (fs : String → Option (List String))
    (split : String → List String) (parseF : String → Rat)
    (parseI : String → Int) (vdef : VALUE) (env : List (String × String))
    (r : String) (henv : cpp_getenv env "DATASET_ROOT_DIR" = some r) :
    main_load fs split parseF parseI vdef env =
      some (load_data fs split parseF parseI vdef (r ++ "house_price\\") GetDataConfig)
    ∧ (load_data fs split parseF parseI vdef (r ++ "house_price\\") GetDataConfig).1 =
      load_data_from_one_file (fs (r ++ "house_price\\/train.csv"))
        split parseF parseI GetDataConfig vdef
    ∧ (load_data fs split parseF parseI vdef (r ++ "house_price\\") GetDataConfig).2.1 =
      load_data_from_one_file (fs (r ++ "house_price\\/test.csv"))
        split parseF parseI GetDataConfig vdef := by
  refine ⟨?_, ?_, ?_⟩
  · simp [main_load, main_root_dir, root_dir_init, henv]
  · show load_data_from_one_file (fs ((r ++ "house_price\\") ++ "/train.csv")) _ _ _ _ _ = _
    rw [String.append_assoc]
    rfl
  · show load_data_from_one_file (fs ((r ++ "house_price\\") ++ "/test.csv")) _ _ _ _ _ = _
    rw [String.append_assoc]
    rfl

/-- Witness for C7 at a concrete environment binding the variable to
`"root/"`, an absent filesystem, and trivial tokenizer and parsers. -/
theorem claim_C7_dataset_paths_witness :
    main_load (fun _ => none) (fun s => [s]) (fun _ => 0) (fun _ => 0)
        (VALUE.Category 0) [("DATASET_ROOT_DIR", "root/")] =
      some (load_data (fun _ => none) (fun s => [s]) (fun _ => 0) (fun _ => 0)
        (VALUE.Category 0) ("root/" ++ "house_price\\") GetDataConfig)
    ∧ (load_data (fun _ => none) (fun s => [s]) (fun _ => 0) (fun _ => 0)
        (VALUE.Category 0) ("root/" ++ "house_price\\") GetDataConfig).1 =
      load_data_from_one_file ((fun _ => none) ("root/" ++ "house_price\\/train.csv"))
        (fun s => [s]) (fun _ => 0) (fun _ => 0) GetDataConfig (VALUE.Category 0)
    ∧ (load_data (fun _ => none) (fun s => [s]) (fun _ => 0) (fun _ => 0)
        (VALUE.Category 0) ("root/" ++ "house_price\\") GetDataConfig).2.1 =
      load_data_from_one_file ((fun _ => none) ("root/" ++ "house_price\\/test.csv"))
        (fun s => [s]) (fun _ => 0) (fun _ => 0) GetDataConfig (VALUE.Category 0) :=
  claim_C7_dataset_paths (fun _ => none) (fun s => [s]) (fun _ => 0) (fun _ => 0)
    (VALUE.Category 0) [("DATASET_ROOT_DIR", "root/")] "root/" rfl

/-- C9: a file that cannot be opened yields an empty dataset, which is
exactly the dataset of an empty file, and `load_data` returns 0
unconditionally, so the caller cannot distinguish a missing CSV from an
empty one. -/
theorem claim_C9_missing_file_silent (fs : String → Option (List String))
    (split : String → List String) (parseF : String → Rat)
    (parseI : String → Int) (vdef : VALUE) (data_dir : String)
    (cfg : List (String × DATA_CONFIG)) :
    load_data_from_one_file none split parseF parseI cfg vdef = []
    ∧ load_data_from_one_file none split parseF parseI cfg vdef =
      load_data_from_one_file (some []) split parseF parseI cfg vdef
    ∧ (load_data fs split parseF parseI vdef data_dir cfg).2.2 = 0 :=
  ⟨rfl, rfl, rfl⟩

/-- A successful association-list lookup returns a stored pair. -/
theorem lookup_mem {α β : Type} [BEq α] [LawfulBEq α] (l : List (α × β))
    (a : α) (b : β) (h : l.lookup a = some b) : (a, b) ∈ l := by
  induction l with
  | nil => simp [List.lookup] at h
  | cons p ps ih =>
    obtain ⟨k, v⟩ := p
    simp only [List.lookup] at h
    split at h
    · rename_i hk
      have ha : a = k := by simpa using hk
      cases h
      subst ha
      exact List.mem_cons_self _ _
    · exact List.mem_cons_of_mem _ (ih h)

/-- Every configured column index is within the row arity (nine). -/
theorem GetDataConfig_pos_lt (n : String) (c : DATA_CONFIG)
    (h : (n, c) ∈ GetDataConfig) : c.pos < GetDataConfig.length := by
  fin_cases h <;> simp [GetDataConfig]

/-- Distinct configured names are assigned distinct column indices. -/
theorem GetDataConfig_pos_inj (n1 n2 : String) (c1 c2 : DATA_CONFIG)
    (h1 : (n1, c1) ∈ GetDataConfig) (h2 : (n2, c2) ∈ GetDataConfig)
    (hne : n1 ≠ n2) : c1.pos ≠ c2.pos := by
  fin_cases h1 <;> fin_cases h2 <;> simp_all [GetDataConfig]

/-- One cell step preserves the row arity. -/
theorem fillStep_length (parseF : String → Rat) (parseI : String → Int)
    (cfg : List (String × DATA_CONFIG)) (data : Row) (ch : String × String) :
    (fillStep parseF parseI cfg data ch).length = data.length := by
  unfold fillStep
  cases cfg.lookup ch.2 with
  | none => rfl
  | some c =>
    dsimp only
    split <;> simp

/-- The cell fold preserves the row arity. -/
theorem fillRow_fold_length (parseF : String → Rat) (parseI : String → Int)
    (cfg : List (String × DATA_CONFIG)) :
    ∀ (l : List (String × String)) (init : Row),
    (l.foldl (fillStep parseF parseI cfg) init).length = init.length := by
  intro l
  induction l with
  | nil => intro init; rfl
  | cons a as ih =>
    intro init
    rw [List.foldl_cons, ih, fillStep_length]

/-- Cells whose configuration never targets position `p` leave position
`p` of the row unchanged. -/
theorem fillRow_fold_untouched (parseF : String → Rat) (parseI : String → Int)
    (cfg : List (String × DATA_CONFIG)) (p : Nat) :
    ∀ (l : List (String × String)) (init : Row),
    (∀ ch ∈ l, ∀ c, cfg.lookup ch.2 = some c → c.pos ≠ p) →
    (l.foldl (fillStep parseF parseI cfg) init).get? p = init.get? p := by
  intro l
  induction l with
  | nil => intro init _; rfl
  | cons a as ih =>
    intro init hl
    rw [List.foldl_cons, ih _ (fun ch hch => hl ch (List.mem_cons_of_mem a hch))]
    unfold fillStep
    cases hc : cfg.lookup a.2 with
    | none => rfl
    | some c =>
      have hp : c.pos ≠ p := hl a (List.mem_cons_self a as) c hc
      dsimp only
      split <;> exact List.get?_set_ne _ _ hp

/-- C4: for every CSV cell whose header name appears in the
configuration, the loader stores at the configured column index a
`Measurement` parsed as float when the configured kind is `"value"`, and
a `Category` parsed as int when it is `"class"`; the target column
`SalePrice` is configured at index 0. -/
theorem claim_C4_loader_cell (parseF : String → Rat) (parseI : String → Int)
    (heads splits : List String) (vdef : VALUE) (col : Nat)
    (name cell : String) (c : DATA_CONFIG)
    (hnd : heads.Nodup)
    (hcell : splits.get? col = some cell)
    (hname : heads.get? col = some name)
    (hc : GetDataConfig.lookup name = some c) :
    (fillRow parseF parseI GetDataConfig heads splits
        (List.replicate GetDataConfig.length vdef)).get? c.pos =
      some (if c.dtype = "value" then VALUE.Measurement (parseF cell)
        else VALUE.Category (parseI cell))
    ∧ GetDataConfig.lookup "SalePrice" = some ⟨"value", 0⟩ := by
  refine ⟨?_, rfl⟩
  have hget : (splits.zip heads).get? col = some (cell, name) := by
    rw [List.get?_zip_eq_some]
    exact ⟨hcell, hname⟩
  obtain ⟨hlt, -⟩ := List.get?_eq_some.1 hget
  have hel : (splits.zip heads)[col] = (cell, name) := by
    have h2 := hget
    rw [List.get?_eq_getElem?, List.getElem?_eq_getElem hlt] at h2
    exact Option.some_injective _ h2
  have hdec : splits.zip heads =
      (splits.zip heads).take col ++
        (cell, name) :: (splits.zip heads).drop (col + 1) := by
    conv_lhs => rw [← List.take_append_drop col (splits.zip heads)]
    rw [List.drop_eq_getElem_cons hlt, hel]
  show ((splits.zip heads).foldl (fillStep parseF parseI GetDataConfig)
      (List.replicate GetDataConfig.length vdef)).get? c.pos = _
  rw [hdec, List.foldl_append, List.foldl_cons]
  have hmid : fillStep parseF parseI GetDataConfig
        (((splits.zip heads).take col).foldl (fillStep parseF parseI GetDataConfig)
          (List.replicate GetDataConfig.length vdef)) (cell, name) =
      (((splits.zip heads).take col).foldl (fillStep parseF parseI GetDataConfig)
          (List.replicate GetDataConfig.length vdef)).set c.pos
        (if c.dtype = "value" then VALUE.Measurement (parseF cell)
          else VALUE.Category (parseI cell)) := by
    simp only [fillStep, hc]
    split <;> rfl
  rw [hmid]
  have huntouched : ∀ ch ∈ (splits.zip heads).drop (col + 1),
      ∀ c2, GetDataConfig.lookup ch.2 = some c2 → c2.pos ≠ c.pos := by
    intro ch hch c2 hc2
    obtain ⟨j, hj⟩ := List.mem_iff_get?.1 hch
    rw [List.get?_drop] at hj
    have hhead : heads.get? (col + 1 + j) = some ch.2 :=
      ((List.get?_zip_eq_some _ _ _ _).1 hj).2
    have hcolheads : col < heads.length := (List.get?_eq_some.1 hname).1
    have hne2 : ch.2 ≠ name := by
      intro heq
      rw [heq] at hhead
      have heq2 : heads[col]? = heads[(col + 1 + j)]? := by
        rw [← List.get?_eq_getElem?, ← List.get?_eq_getElem?, hname, hhead]
      have := List.getElem?_inj hcolheads hnd heq2
      omega
    exact GetDataConfig_pos_inj ch.2 name c2 c
      (lookup_mem _ _ _ hc2) (lookup_mem _ _ _ hc) hne2
  rw [fillRow_fold_untouched _ _ _ _ _ _ huntouched]
  have hposlt : c.pos <
      ((((splits.zip heads).take col).foldl (fillStep parseF parseI GetDataConfig)
        (List.replicate GetDataConfig.length vdef))).length := by
    rw [fillRow_fold_length, List.length_replicate]
    exact GetDataConfig_pos_lt name c (lookup_mem _ _ _ hc)
  exact List.get?_set_eq_of_lt _ hposlt

/-- Witness for C4: a one-column CSV whose header is the target column
`SalePrice`; the parsed float lands at index 0 as a `Measurement`. -/
theorem claim_C4_loader_cell_witness :
    (fillRow (fun _ => (7 : Rat)) (fun _ => (3 : Int)) GetDataConfig
        ["SalePrice"] ["77"]
        (List.replicate GetDataConfig.length (VALUE.Category 0))).get?
        (DATA_CONFIG.mk "value" 0).pos =
      some (if (DATA_CONFIG.mk "value" 0).dtype = "value"
        then VALUE.Measurement ((fun _ => (7 : Rat)) "77")
        else VALUE.Category ((fun _ => (3 : Int)) "77"))
    ∧ GetDataConfig.lookup "SalePrice" = some ⟨"value", 0⟩ :=
  claim_C4_loader_cell (fun _ => (7 : Rat)) (fun _ => (3 : Int))
    ["SalePrice"] ["77"] (VALUE.Category 0) 0 "SalePrice" "77" ⟨"value", 0⟩
    (by simp) rfl rfl rfl

/-- The reading loop after the header has been consumed: it emits one row
per line up to, and excluding, the first empty line. -/
theorem load_rows_go_after_header (split : String → List String)
    (parseF : String → Rat) (parseI : String → Int)
    (cfg : List (String × DATA_CONFIG)) (vdef : VALUE) (hdr : List String)
    (hne : hdr ≠ []) (lines : List String) :
    load_rows_go split parseF parseI cfg vdef lines hdr =
      (lines.take (lines.findIdx (fun l => l == ""))).map
        (fun l => fillRow parseF parseI cfg hdr (split l)
          (List.replicate cfg.length vdef)) := by
  induction lines with
  | nil => simp [load_rows_go]
  | cons l rest ih =>
    by_cases hl : l = ""
    · subst hl
      simp [load_rows_go, List.findIdx_cons]
    · have hempty : hdr.isEmpty = false := by
        cases hdr with
        | nil => exact absurd rfl hne
        | cons a as => rfl
      have hbeq : (l == "") = false := by simp [hl]
      simp [load_rows_go, hl, hempty, List.findIdx_cons, hbeq, ih,
        List.take_succ_cons]

/-- C8: for every CSV file read, the returned dataset consists of exactly
the lines strictly after the first line (the header, never emitted as a
data row) and strictly before the first empty line, at which point
reading stops; each such line becomes one row parsed against the header
of the first line. -/
theorem claim_C8_loader_line_window (split : String → List String)
    (parseF : String → Rat) (parseI : String → Int)
    (cfg : List (String × DATA_CONFIG)) (vdef : VALUE) (lines : List String)
    (hsplit : ∀ s, s ≠ "" → split s ≠ []) :
    load_rows split parseF parseI cfg vdef lines =
      ((lines.take (lines.findIdx (fun l => l == ""))).drop 1).map
        (fun l => fillRow parseF parseI cfg (split (lines.headD "")) (split l)
          (List.replicate cfg.length vdef)) := by
  cases lines with
  | nil => rfl
  | cons l rest =>
    by_cases hl : l = ""
    · subst hl
      simp [load_rows, load_rows_go, List.findIdx_cons]
    · have h1 := load_rows_go_after_header split parseF parseI cfg vdef
        (split l) (hsplit l hl) rest
      have hbeq : (l == "") = false := by simp [hl]
      simp [load_rows, load_rows_go, hl, List.findIdx_cons, h1, hbeq,
        List.take_succ_cons]

/-- Witness for C8: a header line, one data line, an empty line, then a
trailing line that must be ignored. -/
theorem claim_C8_loader_line_window_witness :
    load_rows (fun s => [s]) (fun _ => 0) (fun _ => 0) GetDataConfig
        (VALUE.Category 0) ["H", "a", "", "b"] =
      (((["H", "a", "", "b"].take
          (["H", "a", "", "b"].findIdx (fun l => l == ""))).drop 1).map
        (fun l => fillRow (fun _ => 0) (fun _ => 0) GetDataConfig
          ((fun s => [s]) (["H", "a", "", "b"].headD ""))
          ((fun s => [s]) l)
          (List.replicate GetDataConfig.length (VALUE.Category 0)))) :=
  claim_C8_loader_line_window (fun s => [s]) (fun _ => 0) (fun _ => 0)
    GetDataConfig (VALUE.Category 0) ["H", "a", "", "b"]
    (fun s _ => List.cons_ne_nil s [])

/-- C10: the `std::string` built from `getenv("DATASET_ROOT_DIR")` is
well-defined exactly when the variable is set; with the variable unset
`getenv` returns a null pointer, the construction is undefined behaviour
(modelled as `none`), and no loading happens. -/
theorem claim_C10_getenv_null (fs : String → Option (List String))
    (split : String → List String) (parseF : String → Rat)
    (parseI : String → Int) (vdef : VALUE) (env : List (String × String)) :
    ((root_dir_init env).isSome ↔ (cpp_getenv env "DATASET_ROOT_DIR").isSome)
    ∧ (cpp_getenv env "DATASET_ROOT_DIR" = none →
        main_load fs split parseF parseI vdef env = none) := by
  unfold root_dir_init main_load main_root_dir root_dir_init
  cases h : cpp_getenv env "DATASET_ROOT_DIR" <;> simp [h]

end BasicTree
